import Mathlib

/-!
Shallow embedding of the cyllenian static-file server request pipeline.

Strings from the C source are modelled as lists of characters (the logical
contents of a NUL-terminated C string).  The filesystem is modelled as a
predicate `fs : Str → Bool` standing in for `stat`-based `file_exists`, and
the HOME environment variable as a list `home`.  Heap allocation failures are
ignored (the spec reduces them to steps that cannot fail in a managed-memory
target); fixed-size buffer truncation is modelled with `List.take` where the
source uses `snprintf`/`strncat` bounds.  Reads past the end of a buffer,
which are undefined behavior in the source, are modelled as explicit error
constructors so that every function is total.
-/

abbrev Str := List Char

/-! ## paths_security.c -/

/-- The ten traversal literals of `contains_traversal_patterns`
(src/src/paths_security.c lines 33 to 44), in source order. -/
def traversal_patterns : List Str :=
  [ "../".data,
    "%2e%2e%2f".data,
    "%2e%2e/".data,
    "..%2f".data,
    "%2e%2e%5c".data,
    "%2e%2e\\".data,
    "..%5c".data,
    "%252e%252e%255c".data,
    "..%255c".data,
    "..\\".data ]

/-- `strstr(s, pat) != NULL`: `pat` occurs as a contiguous substring of `s`. -/
def containsSubstr (pat : Str) : Str → Bool
  | [] => pat.isEmpty
  | c :: rest => pat.isPrefixOf (c :: rest) || containsSubstr pat rest

/-- `contains_traversal_patterns` (src/src/paths_security.c lines 28 to 60):
substring search for each of the ten literals. -/
def contains_traversal_patterns (file_request : Str) : Bool :=
  traversal_patterns.any fun pat => containsSubstr pat file_request

/-- The copy loop of `normalize_request_path` (src/src/paths_security.c lines
73 to 85): a `/` immediately followed by another `/` is skipped, every other
character is copied. -/
def collapseSlashes : Str → Str
  | [] => []
  | c :: rest =>
    if c = '/' ∧ rest.head? = some '/' then collapseSlashes rest
    else c :: collapseSlashes rest

/-- The trailing-slash removal of `normalize_request_path`
(src/src/paths_security.c lines 90 to 92): drop the final character when the
resulting string is nonempty and ends in a slash. -/
def stripTrailingSlash (l : Str) : Str :=
  if l.getLast? = some '/' then l.dropLast else l

/-- `normalize_request_path` (src/src/paths_security.c lines 69 to 99):
collapse consecutive slashes, then strip one trailing slash. -/
def normalize_request_path (file_request : Str) : Str :=
  stripTrailingSlash (collapseSlashes file_request)

/-! ## file.c -/

/-- `get_file_extension` (src/src/file.c lines 66 to 91): `strrchr(path, '.')`
plus one; `none` when the path has no dot, otherwise the characters after the
last dot. -/
def get_file_extension (file_path : Str) : Option Str :=
  if '.' ∈ file_path then some ((file_path.reverse.takeWhile fun c => c != '.').reverse)
  else none

/-! ## paths.c -/

/-- The format string of `prepend_program_data_path` (src/src/paths.c line 51)
between `%s` (HOME) and `%s` (the relative path). -/
def program_data_infix : Str := "/.local/share/cyllenian/".data

/-- `prepend_program_data_path` (src/src/paths.c lines 28 to 55):
`$HOME/.local/share/cyllenian/<relative>`. -/
def prepend_program_data_path (home relative : Str) : Str :=
  home ++ program_data_infix ++ relative

/-- The website root used throughout response.c: the result of
`prepend_program_data_path(buf, "website/")`. -/
def websiteRoot (home : Str) : Str :=
  prepend_program_data_path home "website/".data

/-- `website_dir_exists` (src/src/paths.c lines 64 to 91): the only
startup-time filesystem check, a `stat` of the website directory itself. -/
def website_dir_exists (fs : Str → Bool) (home : Str) : Bool :=
  fs (websiteRoot home)

/-! ## mime.c -/

/-- `mime_type_associations` (src/src/mime.c lines 31 to 38), in source
order. -/
def mime_type_associations : List (Str × Str) :=
  [ ("css".data, "text/css".data),
    ("gif".data, "image/gif".data),
    ("htm".data, "text/html".data),
    ("html".data, "text/html".data),
    ("jpeg".data, "image/jpeg".data),
    ("jpg".data, "image/jpeg".data),
    ("js".data, "text/javascript".data),
    ("json".data, "application/json".data),
    ("mp3".data, "audio/mpeg".data),
    ("mp4".data, "video/mp4".data),
    ("png".data, "image/png".data),
    ("svg".data, "image/svg+xml".data),
    ("ttf".data, "font/ttf".data),
    ("xml".data, "application/xml".data) ]

/-- `strcmp` on the logical contents of two C strings, as an `Ordering`. -/
def strcmpL : Str → Str → Ordering
  | [], [] => .eq
  | [], _ :: _ => .lt
  | _ :: _, [] => .gt
  | a :: as, b :: bs => if a < b then .lt else if b < a then .gt else strcmpL as bs

/-- Outcome of `get_content_type` writing (or not writing) its output buffer.
`untouched` is the source leaving the caller-supplied buffer unwritten when
the binary search finds no match; `oobAccess` is the source indexing
`mime_type_associations` outside its fourteen entries (possible because
`upper_bound` is unsigned and `middle_value - 1` wraps around at zero). -/
inductive CTResult where
  | written (line : Str)
  | untouched
  | oobAccess
  | fuelOut
  deriving DecidableEq

/-- One `snprintf(content_type, MAX_CONTENT_TYPE, "Content-Type: %s\r\n\r\n", m)`:
the output is capped at 127 characters (MAX_CONTENT_TYPE is 128, one byte
reserved for the terminator). -/
def contentTypeLine (m : Str) : Str :=
  ("Content-Type: ".data ++ m ++ "\r\n\r\n".data).take 127

/-- The `while (!match_found)` binary search of `get_content_type`
(src/src/mime.c lines 47 to 77).  `lower` and `upper` are the unsigned
32-bit `lower_bound`/`upper_bound`; `upper_bound = middle_value - 1` wraps
modulo 2^32 when `middle_value` is zero.  The loop always terminates on the
concrete table (a wrapped `upper` makes the next `middle_value` index far out
of bounds), and the fuel is never exhausted in any theorem below. -/
def mimeSearch : Nat → Nat → Nat → Str → CTResult
  | 0, _, _, _ => .fuelOut
  | fuel + 1, lower, upper, ext =>
    if lower > upper then .untouched
    else
      let middle := (lower + upper) % 2 ^ 32 / 2
      match mime_type_associations[middle]? with
      | none => .oobAccess
      | some entry =>
        match strcmpL entry.1 ext with
        | .lt => mimeSearch fuel ((middle + 1) % 2 ^ 32) upper ext
        | .eq => .written (contentTypeLine entry.2)
        | .gt => mimeSearch fuel lower ((middle + 2 ^ 32 - 1) % 2 ^ 32) ext

/-- `get_content_type` (src/src/mime.c lines 29 to 83): a path without a dot
yields the `text/plain` default line; otherwise the binary search runs with
`lower_bound = 0`, `upper_bound = NUM_OF_MIME_TYPES - 1 = 13`, and on
`match_found == false` the output buffer is left unwritten. -/
def get_content_type (file_request : Str) : CTResult :=
  match get_file_extension file_request with
  | none => .written ("Content-Type: text/plain\r\n\r\n".data.take 127)
  | some ext => mimeSearch 64 0 13 ext

/-! ## response.c -/

/-- `response_code_associations` (src/src/response.c lines 28 to 33).  The
array is declared with `NUM_OF_RESPONSE_CODES = 5` entries but only four
initializers, so the fifth entry is zero-initialized. -/
def response_code_associations : List (Nat × Str) :=
  [ (200, "HTTP/1.1 200 OK".data),
    (403, "HTTP/1.1 403 Forbidden".data),
    (404, "HTTP/1.1 404 Not Found".data),
    (405, "HTTP/1.1 405 Method Not Allowed".data),
    (0, [])]

/-- `get_response_code_msg` (src/src/response.c lines 26 to 50): linear search
of the table, `snprintf(msg, MAX_RESPONSE_CODE, "%s\r\n", message)` on a hit
(capped at 127 characters), failure otherwise. -/
def get_response_code_msg (response_code : Nat) : Option Str :=
  (response_code_associations.find? fun entry => entry.1 == response_code).map
    fun entry => (entry.2 ++ "\r\n".data).take 127

/-- `Server: Cyllenian\r\n` (src/src/response.c line 64). -/
def server_name : Str := "Server: Cyllenian\r\n".data

/-- Outcome of `construct_header`.  `errorNull` is a NULL return (unsupported
status code or header overflow); `uninitRead` is the `strlen(content_type)`
call on a buffer `get_content_type` never wrote; `oobMime` and `fuelOut`
propagate the corresponding `get_content_type` outcomes. -/
inductive HeaderResult where
  | ok (header : Str)
  | errorNull
  | uninitRead
  | oobMime
  | fuelOut
  deriving DecidableEq

/-- `construct_header` (src/src/response.c lines 63 to 136).  The remaining
space starts at `MAX_HEADER = 1024`, is reduced by the status line, and is
not reduced for the `Server` line (the source appends it with `strncat`
without bounds accounting).  The Content-Type line is appended only when its
length is strictly below the remaining space, truncated by `strncat` to
`remaining - 1` characters; otherwise the function frees the buffer and
returns NULL. -/
def construct_header (response_code : Nat) (file_request : Str) : HeaderResult :=
  match get_response_code_msg response_code with
  | none => .errorNull
  | some response_code_msg =>
    if response_code_msg.length < 1024 then
      let header := response_code_msg.take 1023 ++ server_name
      let remaining := 1024 - response_code_msg.length
      match get_content_type file_request with
      | .written content_type =>
        if content_type.length < remaining then
          .ok (if content_type ≠ [] then header ++ content_type.take (remaining - 1) else header)
        else .errorNull
      | .untouched => .uninitRead
      | .oobAccess => .oobMime
      | .fuelOut => .fuelOut
    else .errorNull

/-- Outcome of `isolate_file_request`.  `malformed` is the NULL return for a
target ending in a slash; `oobRead` is the undefined dereference of
`request_buffer + METHOD_LENGTH` when the duplicated request holds fewer than
five characters. -/
inductive IsoResult where
  | ok (target : Str)
  | malformed
  | oobRead
  deriving DecidableEq

/-- `isolate_file_request` (src/src/response.c lines 146 to 177): skip
`METHOD_LENGTH = 5` characters, cut at the next space, and reject a target
whose last character is a slash.  When the target is empty the source checks
`file_request[strlen(file_request) - 1]`, which is the character at index 4
of the request buffer (one before the skip destination); `Option.getD`
expresses exactly that fallback.  A request shorter than five characters
makes the skip itself read past the duplicated buffer. -/
def isolate_file_request (request_buffer : Str) : IsoResult :=
  if request_buffer.length < 5 then .oobRead
  else
    let file_request := (request_buffer.drop 5).takeWhile fun c => c != ' '
    let examined := file_request.getLast?.getD (request_buffer.getD 4 ' ')
    if examined = '/' then .malformed else .ok file_request

/-- `get_method` (src/src/response.c lines 185 to 204): `strncmp` against
`GET` (three characters) then `HEAD` (four characters). -/
inductive Method where
  | GET
  | HEAD
  deriving DecidableEq

/-- `get_method` returns the matched literal or NULL. -/
def get_method (request_buffer : Str) : Option Method :=
  if "GET".data.isPrefixOf request_buffer then some .GET
  else if "HEAD".data.isPrefixOf request_buffer then some .HEAD
  else none

/-- `fallback_website_path` (src/src/response.c line 226). -/
def fallback_website_path : Str := "/etc/cyllenian/website".data

/-- `handle_error_case` (src/src/response.c lines 221 to 278): rebuild the
path as `<website root><error page>`, keep it when that file exists, else
`snprintf("%s/%s", fallback_website_path, error_page)`.  The fallback path is
not checked for existence. -/
def handle_error_case (fs : Str → Bool) (home : Str) (error_page : Str) : Str :=
  let file_request := websiteRoot home ++ error_page
  if fs file_request then file_request
  else fallback_website_path ++ '/' :: error_page

/-- `determine_response_code` (src/src/response.c lines 291 to 334): method
check, in-place normalization, traversal detection, existence check, in that
order, each failure replacing the target with the matching error page. -/
def determine_response_code (fs : Str → Bool) (home : Str)
    (request_buffer file_request : Str) : Nat × Str :=
  match get_method request_buffer with
  | none => (405, handle_error_case fs home "405.html".data)
  | some _ =>
    let p := normalize_request_path file_request
    if contains_traversal_patterns p then (403, handle_error_case fs home "403.html".data)
    else if !fs p then (404, handle_error_case fs home "404.html".data)
    else (200, p)

/-- `get_requested_file_path` (src/src/response.c lines 346 to 379): isolate
the target from a duplicate of the request, default a malformed target to
`404.html`, and prepend the website root.  `none` models the undefined
out-of-bounds read for a request shorter than the five-character skip. -/
def get_requested_file_path (home : Str) (request_buffer : Str) : Option Str :=
  match isolate_file_request request_buffer with
  | .oobRead => none
  | .malformed => some (websiteRoot home ++ "404.html".data)
  | .ok file_request => some (websiteRoot home ++ file_request)

/-- `process_request` (src/src/client.c lines 73 to 110): build the full
path, then run the response-code decision on it. -/
def process_request (fs : Str → Bool) (home : Str)
    (request_buffer : Str) : Option (Nat × Str) :=
  (get_requested_file_path home request_buffer).map
    fun path_buffer => determine_response_code fs home request_buffer path_buffer

/-- Resolver decision order as the specification words it (spec section 4.3,
steps 1 to 4), for comparison with `determine_response_code`: method not in
GET/HEAD gives 405 with the 405 error page resolution; else the isolated
target is normalized and traversal detection gives 403; else a missing file
gives 404; else 200 with the resolved target. -/
def resolver_spec (fs : Str → Bool) (home : Str)
    (request_buffer file_request : Str) : Nat × Str :=
  if (get_method request_buffer).isNone then
    (405, handle_error_case fs home "405.html".data)
  else
    let target := normalize_request_path file_request
    if contains_traversal_patterns target then
      (403, handle_error_case fs home "403.html".data)
    else if !fs target then
      (404, handle_error_case fs home "404.html".data)
    else
      (200, target)

/-! ## Substring and slash-collapsing lemmas -/

/-- Unfolding equation for `collapseSlashes` on a cons cell. -/
lemma collapseSlashes_cons (c : Char) (rest : Str) :
    collapseSlashes (c :: rest) =
      if c = '/' ∧ rest.head? = some '/' then collapseSlashes rest
      else c :: collapseSlashes rest := rfl

/-- Unfolding equation for `containsSubstr` on a cons cell. -/
lemma containsSubstr_cons_eq (pat : Str) (c : Char) (s : Str) :
    containsSubstr pat (c :: s) = (pat.isPrefixOf (c :: s) || containsSubstr pat s) := rfl

/-- A prefix of a list is found by `isPrefixOf`. -/
lemma isPrefixOf_self_append (p w : Str) : p.isPrefixOf (p ++ w) = true := by
  induction p with
  | nil => simp [List.isPrefixOf]
  | cons c cs ih => simp [List.isPrefixOf, ih]

/-- `containsSubstr` is monotone under consing a character at the front. -/
lemma containsSubstr_cons (pat : Str) (c : Char) (s : Str)
    (h : containsSubstr pat s = true) : containsSubstr pat (c :: s) = true := by
  rw [containsSubstr_cons_eq, h, Bool.or_true]

/-- A list starting with `pat` contains `pat`. -/
lemma containsSubstr_append_right (pat w : Str) :
    containsSubstr pat (pat ++ w) = true := by
  cases pat with
  | nil =>
    cases w with
    | nil => rfl
    | cons c rest => simp [containsSubstr, List.isPrefixOf]
  | cons a as =>
    show containsSubstr (a :: as) (a :: (as ++ w)) = true
    rw [containsSubstr_cons_eq]
    have h := isPrefixOf_self_append (a :: as) w
    rw [show (a :: as) ++ w = a :: (as ++ w) from rfl] at h
    rw [h, Bool.true_or]

/-- All characters distinct from the slash. -/
def noSlash (l : Str) : Bool := l.all fun c => c != '/'

/-- Collapsing distributes over a slash-free prefix. -/
lemma collapseSlashes_noSlash_append (p : Str) (h : noSlash p = true) (z : Str) :
    collapseSlashes (p ++ z) = p ++ collapseSlashes z := by
  induction p with
  | nil => rfl
  | cons c cs ih =>
    simp only [noSlash, List.all_cons, Bool.and_eq_true, bne_iff_ne] at h
    show collapseSlashes (c :: (cs ++ z)) = c :: (cs ++ collapseSlashes z)
    rw [collapseSlashes_cons, if_neg (by simp [h.1])]
    rw [ih (by simp [noSlash, h.2])]

/-- Collapsing a list that starts with a slash yields a list that starts with
a slash. -/
lemma collapseSlashes_slash_cons (z : Str) :
    ∃ w, collapseSlashes ('/' :: z) = '/' :: w := by
  induction z with
  | nil => exact ⟨[], rfl⟩
  | cons c rest ih =>
    by_cases hc : c = '/'
    · subst hc
      rw [collapseSlashes_cons, if_pos (by simp)]
      exact ih
    · refine ⟨collapseSlashes (c :: rest), ?_⟩
      rw [collapseSlashes_cons, if_neg (by simp [hc])]

/-- A slash-free pattern survives the collapsing pass wherever it occurs. -/
lemma containsSubstr_collapse_noSlash (pat : Str) (h : noSlash pat = true)
    (x y : Str) : containsSubstr pat (collapseSlashes (x ++ pat ++ y)) = true := by
  induction x with
  | nil =>
    show containsSubstr pat (collapseSlashes (pat ++ y)) = true
    rw [collapseSlashes_noSlash_append pat h y]
    exact containsSubstr_append_right pat (collapseSlashes y)
  | cons c cs ih =>
    show containsSubstr pat (collapseSlashes (c :: (cs ++ pat ++ y))) = true
    rw [collapseSlashes_cons]
    by_cases hcond : c = '/' ∧ (cs ++ pat ++ y).head? = some '/'
    · rw [if_pos hcond]
      exact ih
    · rw [if_neg hcond]
      exact containsSubstr_cons _ _ _ ih

/-- A pattern of the form `q ++ "/"` with slash-free `q` survives the
collapsing pass wherever it occurs. -/
lemma containsSubstr_collapse_slashTail (q : Str) (h : noSlash q = true)
    (x y : Str) :
    containsSubstr (q ++ ['/']) (collapseSlashes (x ++ (q ++ ['/']) ++ y)) = true := by
  induction x with
  | nil =>
    show containsSubstr (q ++ ['/']) (collapseSlashes ((q ++ ['/']) ++ y)) = true
    rw [show (q ++ ['/']) ++ y = q ++ ('/' :: y) by simp]
    rw [collapseSlashes_noSlash_append q h ('/' :: y)]
    obtain ⟨w, hw⟩ := collapseSlashes_slash_cons y
    rw [hw, show q ++ '/' :: w = (q ++ ['/']) ++ w by simp]
    exact containsSubstr_append_right (q ++ ['/']) w
  | cons c cs ih =>
    show containsSubstr (q ++ ['/']) (collapseSlashes (c :: (cs ++ (q ++ ['/']) ++ y))) = true
    rw [collapseSlashes_cons]
    by_cases hcond : c = '/' ∧ (cs ++ (q ++ ['/']) ++ y).head? = some '/'
    · rw [if_pos hcond]
      exact ih
    · rw [if_neg hcond]
      exact containsSubstr_cons _ _ _ ih

/-! ## Structure of collapsed paths -/

/-- Collapsing never empties a nonempty list. -/
lemma collapseSlashes_ne_nil (l : Str) (h : l ≠ []) : collapseSlashes l ≠ [] := by
  induction l with
  | nil => exact absurd rfl h
  | cons c rest ih =>
    rw [collapseSlashes_cons]
    by_cases hcond : c = '/' ∧ rest.head? = some '/'
    · rw [if_pos hcond]
      have : rest ≠ [] := by
        intro hr
        rw [hr] at hcond
        exact absurd hcond.2 (by simp)
      exact ih this
    · rw [if_neg hcond]
      simp

/-- Collapsing preserves the first character. -/
lemma head?_collapseSlashes (l : Str) : (collapseSlashes l).head? = l.head? := by
  induction l with
  | nil => rfl
  | cons c rest ih =>
    rw [collapseSlashes_cons]
    by_cases hcond : c = '/' ∧ rest.head? = some '/'
    · rw [if_pos hcond, ih, hcond.2]
      simp [hcond.1]
    · rw [if_neg hcond]
      rfl

/-- Collapsing preserves the last character. -/
lemma getLast?_collapseSlashes (l : Str) : (collapseSlashes l).getLast? = l.getLast? := by
  induction l with
  | nil => rfl
  | cons c rest ih =>
    rw [collapseSlashes_cons]
    by_cases hcond : c = '/' ∧ rest.head? = some '/'
    · rw [if_pos hcond]
      have hrest : rest ≠ [] := by
        intro hr
        rw [hr] at hcond
        exact absurd hcond.2 (by simp)
      rw [ih]
      have := List.getLast?_append_of_ne_nil [c] hrest
      simpa using this.symm
    · rw [if_neg hcond]
      cases hrest : rest with
      | nil => simp [hrest, collapseSlashes]
      | cons d ds =>
        subst hrest
        have h1 : collapseSlashes (d :: ds) ≠ [] :=
          collapseSlashes_ne_nil _ (by simp)
        have h2 := List.getLast?_append_of_ne_nil [c] h1
        have h3 := List.getLast?_append_of_ne_nil [c] (show (d :: ds) ≠ [] by simp)
        simp only [List.singleton_append] at h2 h3
        rw [h2, ih, h3]

/-- No two consecutive characters are both slashes. -/
def noDoubleSlash : Str → Bool
  | [] => true
  | [_] => true
  | a :: b :: rest => !(a == '/' && b == '/') && noDoubleSlash (b :: rest)

/-- Unfolding `noDoubleSlash` through the head of the tail. -/
lemma noDoubleSlash_cons (c : Char) (l : Str) :
    noDoubleSlash (c :: l) =
      ((match l.head? with
        | some d => !(c == '/' && d == '/')
        | none => true) && noDoubleSlash l) := by
  cases l with
  | nil => rfl
  | cons d ds => rfl

/-- The collapsing pass leaves no two consecutive slashes. -/
lemma noDoubleSlash_collapseSlashes (l : Str) :
    noDoubleSlash (collapseSlashes l) = true := by
  induction l with
  | nil => rfl
  | cons c rest ih =>
    rw [collapseSlashes_cons]
    by_cases hcond : c = '/' ∧ rest.head? = some '/'
    · rw [if_pos hcond]
      exact ih
    · rw [if_neg hcond, noDoubleSlash_cons]
      rw [ih, Bool.and_true]
      cases hh : (collapseSlashes rest).head? with
      | none => rfl
      | some d =>
        rw [head?_collapseSlashes] at hh
        by_cases hc : c = '/'
        · have hd : d ≠ '/' := by
            intro hds
            exact hcond ⟨hc, by rw [hh, hds]⟩
          simp [hd]
        · simp [hc]

/-- A list with no double slashes is a fixed point of the collapsing pass. -/
lemma collapseSlashes_of_noDoubleSlash (l : Str) (h : noDoubleSlash l = true) :
    collapseSlashes l = l := by
  induction l with
  | nil => rfl
  | cons c rest ih =>
    rw [noDoubleSlash_cons, Bool.and_eq_true] at h
    rw [collapseSlashes_cons]
    have hcond : ¬(c = '/' ∧ rest.head? = some '/') := by
      rintro ⟨hc, hh⟩
      have := h.1
      rw [hh, hc] at this
      simp at this
    rw [if_neg hcond, ih h.2]

/-- Dropping the last character preserves the no-double-slash property. -/
lemma noDoubleSlash_dropLast (l : Str) (h : noDoubleSlash l = true) :
    noDoubleSlash l.dropLast = true := by
  induction l with
  | nil => rfl
  | cons c rest ih =>
    cases hr : rest with
    | nil => rfl
    | cons d ds =>
      subst hr
      rw [List.dropLast_cons_of_ne_nil (by simp)]
      rw [noDoubleSlash_cons, Bool.and_eq_true] at h ⊢
      constructor
      · cases hdd : (d :: ds).dropLast with
        | nil => rfl
        | cons e es =>
          have : (d :: ds).dropLast.head? = some d := by
            cases ds with
            | nil => simp at hdd
            | cons f fs => simp
          rw [hdd] at this
          simp only [List.head?_cons] at this ⊢
          cases this
          have h1 := h.1
          simpa using h1
      · exact ih h.2

/-- In a list without double slashes that ends in a slash, the character
before the final slash is not a slash. -/
lemma getLast?_dropLast_ne_slash (l : Str) (h : noDoubleSlash l = true)
    (he : l.getLast? = some '/') : l.dropLast.getLast? ≠ some '/' := by
  induction l with
  | nil => simp at he
  | cons c rest ih =>
    cases hr : rest with
    | nil =>
      subst hr
      simp
    | cons d ds =>
      subst hr
      rw [List.dropLast_cons_of_ne_nil (by simp)]
      cases hds : ds with
      | nil =>
        subst hds
        simp only [List.getLast?_cons_cons, List.getLast?_singleton] at he
        rw [noDoubleSlash_cons, Bool.and_eq_true] at h
        have h1 := h.1
        simp only [List.head?_cons] at h1
        cases he
        simp only [List.dropLast_single, List.getLast?_singleton]
        intro hc
        cases hc
        simp at h1
      | cons e es =>
        subst hds
        have hne : (d :: e :: es).dropLast ≠ [] := by simp
        have hcons := List.getLast?_append_of_ne_nil [c] hne
        simp only [List.singleton_append] at hcons
        rw [hcons]
        rw [noDoubleSlash_cons, Bool.and_eq_true] at h
        have he2 : (d :: e :: es).getLast? = some '/' := by
          simpa using he
        exact ih h.2 he2

/-- A list that does not end in a slash is unchanged by the strip pass. -/
lemma stripTrailingSlash_of_ne (l : Str) (h : l.getLast? ≠ some '/') :
    stripTrailingSlash l = l := by
  rw [stripTrailingSlash, if_neg h]

/-- The result of normalization has no double slashes. -/
lemma noDoubleSlash_normalize (p : Str) :
    noDoubleSlash (normalize_request_path p) = true := by
  rw [normalize_request_path, stripTrailingSlash]
  by_cases h : (collapseSlashes p).getLast? = some '/'
  · rw [if_pos h]
    exact noDoubleSlash_dropLast _ (noDoubleSlash_collapseSlashes p)
  · rw [if_neg h]
    exact noDoubleSlash_collapseSlashes p

/-- The result of normalization does not end in a slash. -/
lemma getLast?_normalize_ne (p : Str) :
    (normalize_request_path p).getLast? ≠ some '/' := by
  rw [normalize_request_path, stripTrailingSlash]
  by_cases h : (collapseSlashes p).getLast? = some '/'
  · rw [if_pos h]
    exact getLast?_dropLast_ne_slash _ (noDoubleSlash_collapseSlashes p) h
  · rw [if_neg h]
    exact h

/-- Collapsing a pair of adjacent slashes is the same as collapsing one. -/
lemma collapseSlashes_double (a b : Str) :
    collapseSlashes (a ++ '/' :: '/' :: b) = collapseSlashes (a ++ '/' :: b) := by
  induction a with
  | nil =>
    show collapseSlashes ('/' :: '/' :: b) = collapseSlashes ('/' :: b)
    rw [collapseSlashes_cons, if_pos (by simp)]
  | cons c cs ih =>
    show collapseSlashes (c :: (cs ++ '/' :: '/' :: b))
        = collapseSlashes (c :: (cs ++ '/' :: b))
    rw [collapseSlashes_cons, collapseSlashes_cons]
    have hhead : (cs ++ '/' :: '/' :: b).head? = (cs ++ '/' :: b).head? := by
      cases cs <;> simp
    rw [hhead]
    by_cases hcond : c = '/' ∧ (cs ++ '/' :: b).head? = some '/'
    · rw [if_pos hcond, if_pos hcond, ih]
    · rw [if_neg hcond, if_neg hcond, ih]

/-! ## Request-line parsing lemmas -/

/-- `strchr` cut: the characters before the first space of `t ++ " " ++ rest`
are exactly `t` when `t` has no space. -/
lemma takeWhile_until_space (t rest : Str) (h : ∀ c ∈ t, c ≠ ' ') :
    ((t ++ ' ' :: rest).takeWhile fun c => c != ' ') = t := by
  induction t with
  | nil => simp [List.takeWhile]
  | cons c cs ih =>
    have hc : (c != ' ') = true := by simpa using h c (by simp)
    simp only [List.cons_append, List.takeWhile_cons, hc]
    simp only [if_true]
    rw [ih fun d hd => h d (by simp [hd])]

/-- The last character of a cons list with a nonempty tail. -/
lemma getLast?_cons_of_ne_nil (a : Char) (t : Str) (h : t ≠ []) :
    (a :: t).getLast? = t.getLast? := by
  have := List.getLast?_append_of_ne_nil [a] h
  simpa using this

/-- `isolate_file_request` on a well-formed GET request line: the five-byte
skip consumes `GET /`, leaving the bare target. -/
lemma isolate_GET (t rest : Str) (hsp : ∀ c ∈ t, c ≠ ' ')
    (hne : t ≠ []) (hl : t.getLast? ≠ some '/') :
    isolate_file_request ("GET /".data ++ t ++ ' ' :: rest) = .ok t := by
  rw [isolate_file_request]
  have h5 : ("GET /".data).length = 5 := by decide
  rw [if_neg (by simp only [List.length_append, List.length_cons, h5]; omega)]
  have hdrop : ("GET /".data ++ t ++ ' ' :: rest).drop 5 = t ++ ' ' :: rest := by
    rw [List.append_assoc, ← h5, List.drop_left]
  rw [hdrop, takeWhile_until_space t rest hsp]
  show (if t.getLast?.getD (("GET /".data ++ t ++ ' ' :: rest).getD 4 ' ') = '/'
      then IsoResult.malformed else IsoResult.ok t) = IsoResult.ok t
  obtain ⟨c, hc⟩ : ∃ c, t.getLast? = some c :=
    ⟨t.getLast hne, List.getLast?_eq_getLast_of_ne_nil hne⟩
  rw [hc]
  have hcne : c ≠ '/' := fun hcc => hl (by rw [hc, hcc])
  simp only [Option.getD_some]
  rw [if_neg hcne]

/-- `isolate_file_request` on a well-formed HEAD request line: the five-byte
skip consumes `HEAD `, leaving the target with its leading slash. -/
lemma isolate_HEAD (t rest : Str) (hsp : ∀ c ∈ t, c ≠ ' ')
    (hne : t ≠ []) (hl : t.getLast? ≠ some '/') :
    isolate_file_request ("HEAD /".data ++ t ++ ' ' :: rest) = .ok ('/' :: t) := by
  rw [isolate_file_request]
  have h6 : ("HEAD /".data).length = 6 := by decide
  rw [if_neg (by simp only [List.length_append, List.length_cons, h6]; omega)]
  have hsplit : "HEAD /".data ++ t ++ ' ' :: rest
      = "HEAD ".data ++ ('/' :: (t ++ ' ' :: rest)) := by
    rw [List.append_assoc]
    rfl
  have h5 : ("HEAD ".data).length = 5 := by decide
  have hdrop : ("HEAD /".data ++ t ++ ' ' :: rest).drop 5 = '/' :: (t ++ ' ' :: rest) := by
    rw [hsplit, ← h5, List.drop_left]
  rw [hdrop]
  have htake : (('/' :: (t ++ ' ' :: rest)).takeWhile fun c => c != ' ') = '/' :: t := by
    simp only [List.takeWhile_cons]
    rw [if_pos (by decide)]
    rw [takeWhile_until_space t rest hsp]
  rw [htake]
  show (if ('/' :: t).getLast?.getD (("HEAD /".data ++ t ++ ' ' :: rest).getD 4 ' ') = '/'
      then IsoResult.malformed else IsoResult.ok ('/' :: t)) = IsoResult.ok ('/' :: t)
  rw [getLast?_cons_of_ne_nil '/' t hne]
  obtain ⟨c, hc⟩ : ∃ c, t.getLast? = some c :=
    ⟨t.getLast hne, List.getLast?_eq_getLast_of_ne_nil hne⟩
  rw [hc]
  have hcne : c ≠ '/' := fun hcc => hl (by rw [hc, hcc])
  simp only [Option.getD_some]
  rw [if_neg hcne]

/-- Any request line starting with `GET /` is recognized as GET. -/
lemma get_method_GET (x : Str) : get_method ("GET /".data ++ x) = some .GET := rfl

/-- Any request line starting with `HEAD /` is recognized as HEAD. -/
lemma get_method_HEAD (x : Str) : get_method ("HEAD /".data ++ x) = some .HEAD := rfl

/-! ## Traversal detection through normalization -/

/-- Each of the ten traversal literals survives the collapsing pass. -/
lemma traversal_collapse (pat : Str) (hmem : pat ∈ traversal_patterns) (x y : Str) :
    containsSubstr pat (collapseSlashes (x ++ pat ++ y)) = true := by
  simp only [traversal_patterns, List.mem_cons, List.not_mem_nil, or_false] at hmem
  rcases hmem with h | h | h | h | h | h | h | h | h | h <;> subst h
  · rw [show (['.', '.', '/'] : Str) = "..".data ++ ['/'] from rfl]
    exact containsSubstr_collapse_slashTail "..".data (by decide) x y
  · exact containsSubstr_collapse_noSlash _ (by decide) x y
  · rw [show (['%', '2', 'e', '%', '2', 'e', '/'] : Str) = "%2e%2e".data ++ ['/'] from rfl]
    exact containsSubstr_collapse_slashTail "%2e%2e".data (by decide) x y
  · exact containsSubstr_collapse_noSlash _ (by decide) x y
  · exact containsSubstr_collapse_noSlash _ (by decide) x y
  · exact containsSubstr_collapse_noSlash _ (by decide) x y
  · exact containsSubstr_collapse_noSlash _ (by decide) x y
  · exact containsSubstr_collapse_noSlash _ (by decide) x y
  · exact containsSubstr_collapse_noSlash _ (by decide) x y
  · exact containsSubstr_collapse_noSlash _ (by decide) x y

/-- No traversal literal is empty. -/
lemma traversal_patterns_ne_nil (pat : Str) (hmem : pat ∈ traversal_patterns) :
    pat ≠ [] := by
  simp only [traversal_patterns, List.mem_cons, List.not_mem_nil, or_false] at hmem
  rcases hmem with h | h | h | h | h | h | h | h | h | h <;> subst h <;> decide

/-- A single detected literal makes `contains_traversal_patterns` true. -/
lemma contains_traversal_of_mem (path pat : Str) (hmem : pat ∈ traversal_patterns)
    (h : containsSubstr pat path = true) : contains_traversal_patterns path = true := by
  rw [contains_traversal_patterns, List.any_eq_true]
  exact ⟨pat, hmem, h⟩

/-- Building the full path and detecting traversal: if the appended target
does not end in a slash and embeds a traversal literal, the normalized full
path still contains that literal. -/
lemma contains_traversal_normalize (base u pat v : Str)
    (hmem : pat ∈ traversal_patterns)
    (hl : (base ++ (u ++ pat ++ v)).getLast? ≠ some '/') :
    contains_traversal_patterns
      (normalize_request_path (base ++ (u ++ pat ++ v))) = true := by
  have hcl : (collapseSlashes (base ++ (u ++ pat ++ v))).getLast? ≠ some '/' := by
    rw [getLast?_collapseSlashes]
    exact hl
  rw [normalize_request_path, stripTrailingSlash_of_ne _ hcl]
  have hassoc : base ++ (u ++ pat ++ v) = (base ++ u) ++ pat ++ v := by
    simp [List.append_assoc]
  rw [hassoc]
  exact contains_traversal_of_mem _ pat hmem (traversal_collapse pat hmem (base ++ u) v)

/-- `get_requested_file_path` after a successful isolation. -/
lemma get_requested_ok (home req t : Str) (h : isolate_file_request req = .ok t) :
    get_requested_file_path home req = some (websiteRoot home ++ t) := by
  unfold get_requested_file_path
  rw [h]

/-- `determine_response_code` short-circuits to 403 when the method is
supported and the normalized path triggers traversal detection. -/
lemma determine_403 (fs : Str → Bool) (home req p : Str) (m : Method)
    (hm : get_method req = some m)
    (htrav : contains_traversal_patterns (normalize_request_path p) = true) :
    determine_response_code fs home req p
      = (403, handle_error_case fs home "403.html".data) := by
  unfold determine_response_code
  rw [hm]
  show (if contains_traversal_patterns (normalize_request_path p) then _ else _) = _
  rw [if_pos htrav]

/-- Claim C1 (amended): for every request line `GET /<t> <rest>` or
`HEAD /<t> <rest>` whose target `t` (space-free, as in any request line)
embeds one of the ten traversal literals and does not end in a slash (so that
it survives target isolation), the resolver yields status 403 with the 403
error page resolution, never 200.  (A target ending in a slash is instead
rejected as malformed and defaulted to `404.html` before traversal detection
runs; see the C1 counterexample.) -/
theorem c1_traversal_403 (fs : Str → Bool) (home t rest u v pat : Str)
    (hmem : pat ∈ traversal_patterns) (ht : t = u ++ pat ++ v)
    (hsp : ∀ c ∈ t, c ≠ ' ') (hl : t.getLast? ≠ some '/') :
    process_request fs home ("GET /".data ++ t ++ ' ' :: rest)
        = some (403, handle_error_case fs home "403.html".data) ∧
    process_request fs home ("HEAD /".data ++ t ++ ' ' :: rest)
        = some (403, handle_error_case fs home "403.html".data) := by
  have hpne : pat ≠ [] := traversal_patterns_ne_nil pat hmem
  have hne : t ≠ [] := by
    intro h0
    rw [ht] at h0
    rcases List.append_eq_nil.mp h0 with ⟨h1, -⟩
    rcases List.append_eq_nil.mp h1 with ⟨-, h2⟩
    exact hpne h2
  constructor
  · have hiso := isolate_GET t rest hsp hne hl
    rw [process_request, get_requested_ok home _ t hiso, Option.map_some']
    have hLastG : (websiteRoot home ++ t).getLast? ≠ some '/' := by
      rw [List.getLast?_append_of_ne_nil _ hne]
      exact hl
    have htrav : contains_traversal_patterns
        (normalize_request_path (websiteRoot home ++ t)) = true := by
      rw [ht]
      exact contains_traversal_normalize (websiteRoot home) u pat v hmem
        (by rw [← ht]; exact hLastG)
    have hmg : get_method ("GET /".data ++ t ++ ' ' :: rest) = some .GET := by
      rw [List.append_assoc]
      exact get_method_GET _
    rw [determine_403 fs home _ _ .GET hmg htrav]
  · have hiso := isolate_HEAD t rest hsp hne hl
    rw [process_request, get_requested_ok home _ ('/' :: t) hiso, Option.map_some']
    have hne2 : ('/' :: t) ≠ [] := by simp
    have hLastH : (websiteRoot home ++ '/' :: t).getLast? ≠ some '/' := by
      rw [List.getLast?_append_of_ne_nil _ hne2, getLast?_cons_of_ne_nil '/' t hne]
      exact hl
    have htrav : contains_traversal_patterns
        (normalize_request_path (websiteRoot home ++ '/' :: t)) = true := by
      have hform : websiteRoot home ++ '/' :: t
          = websiteRoot home ++ (('/' :: u) ++ pat ++ v) := by
        rw [ht]
        simp
      rw [hform]
      exact contains_traversal_normalize (websiteRoot home) ('/' :: u) pat v hmem
        (by rw [← hform]; exact hLastH)
    have hmh : get_method ("HEAD /".data ++ t ++ ' ' :: rest) = some .HEAD := by
      rw [List.append_assoc]
      exact get_method_HEAD _
    rw [determine_403 fs home _ _ .HEAD hmh htrav]

/-- Claim C9: path normalization is idempotent. -/
theorem c9_normalize_idempotent (p : Str) :
    normalize_request_path (normalize_request_path p) = normalize_request_path p := by
  have h1 : noDoubleSlash (normalize_request_path p) = true := noDoubleSlash_normalize p
  have h2 : (normalize_request_path p).getLast? ≠ some '/' := getLast?_normalize_ne p
  calc normalize_request_path (normalize_request_path p)
      = stripTrailingSlash (collapseSlashes (normalize_request_path p)) := rfl
    _ = stripTrailingSlash (normalize_request_path p) := by
        rw [collapseSlashes_of_noDoubleSlash _ h1]
    _ = normalize_request_path p := stripTrailingSlash_of_ne _ h2

/-- Claim C2: the resolver refines the specified decision order (method check,
then normalization plus traversal detection, then existence, then 200), and
its status code always lies in the set 200, 403, 404, 405. -/
theorem c2_decision_order (fs : Str → Bool) (home req p : Str) :
    determine_response_code fs home req p = resolver_spec fs home req p ∧
    ((determine_response_code fs home req p).1 = 200 ∨
     (determine_response_code fs home req p).1 = 403 ∨
     (determine_response_code fs home req p).1 = 404 ∨
     (determine_response_code fs home req p).1 = 405) := by
  constructor
  · unfold determine_response_code resolver_spec
    cases hgm : get_method req with
    | none => simp
    | some m => simp
  · unfold determine_response_code
    cases hgm : get_method req with
    | none => simp
    | some m =>
      dsimp only
      by_cases h1 : contains_traversal_patterns (normalize_request_path p)
      · rw [if_pos h1]
        simp
      · rw [if_neg h1]
        cases hf : fs (normalize_request_path p) <;> simp [hf]

/-- The website root decomposes as a list ending in a slash. -/
lemma websiteRoot_split (home : Str) :
    websiteRoot home = (home ++ program_data_infix ++ "website".data) ++ ['/'] := by
  rw [websiteRoot, prepend_program_data_path]
  rw [show ("website/".data : Str) = "website".data ++ ['/'] from rfl]
  rw [List.append_assoc (home ++ program_data_infix)]

/-- Claim C10: a GET request line for `/t` and a HEAD request line for `/t`
agree.  The five-byte skip consumes the leading slash for GET but not for
HEAD; prepending the website root (which ends in a slash) gives the HEAD
variant a double slash, which normalization collapses, so both methods
produce the same resolver outcome; and when the combined path has no double
slashes, the common normalized path is exactly `<root><t>`. -/
theorem c10_get_head_agree (fs : Str → Bool) (home t rest : Str)
    (hne : t ≠ []) (hsp : ∀ c ∈ t, c ≠ ' ') (hl : t.getLast? ≠ some '/') :
    get_requested_file_path home ("GET /".data ++ t ++ ' ' :: rest)
        = some (websiteRoot home ++ t) ∧
    get_requested_file_path home ("HEAD /".data ++ t ++ ' ' :: rest)
        = some (websiteRoot home ++ '/' :: t) ∧
    normalize_request_path (websiteRoot home ++ '/' :: t)
        = normalize_request_path (websiteRoot home ++ t) ∧
    process_request fs home ("GET /".data ++ t ++ ' ' :: rest)
        = process_request fs home ("HEAD /".data ++ t ++ ' ' :: rest) ∧
    (noDoubleSlash (websiteRoot home ++ t) = true →
      normalize_request_path (websiteRoot home ++ t) = websiteRoot home ++ t) := by
  have hG := get_requested_ok home _ t (isolate_GET t rest hsp hne hl)
  have hH := get_requested_ok home _ ('/' :: t) (isolate_HEAD t rest hsp hne hl)
  have e2 : websiteRoot home ++ t
      = (home ++ program_data_infix ++ "website".data) ++ '/' :: t := by
    rw [websiteRoot_split, List.append_assoc]
    rfl
  have e1 : websiteRoot home ++ '/' :: t
      = (home ++ program_data_infix ++ "website".data) ++ '/' :: '/' :: t := by
    rw [websiteRoot_split, List.append_assoc]
    rfl
  have hnorm : normalize_request_path (websiteRoot home ++ '/' :: t)
      = normalize_request_path (websiteRoot home ++ t) := by
    rw [normalize_request_path, normalize_request_path, e1, e2,
      collapseSlashes_double]
  refine ⟨hG, hH, hnorm, ?_, ?_⟩
  · have hmg : get_method ("GET /".data ++ t ++ ' ' :: rest) = some .GET := by
      rw [List.append_assoc]
      exact get_method_GET _
    have hmh : get_method ("HEAD /".data ++ t ++ ' ' :: rest) = some .HEAD := by
      rw [List.append_assoc]
      exact get_method_HEAD _
    rw [process_request, process_request, hG, hH, Option.map_some', Option.map_some']
    unfold determine_response_code
    rw [hmg, hmh]
    dsimp only
    rw [hnorm]
  · intro h
    rw [normalize_request_path, collapseSlashes_of_noDoubleSlash _ h,
      stripTrailingSlash_of_ne]
    rw [List.getLast?_append_of_ne_nil _ hne]
    exact hl

/-- `handle_error_case` written as a single conditional. -/
lemma handle_error_case_eq (fs : Str → Bool) (home page : Str) :
    handle_error_case fs home page =
      if fs (websiteRoot home ++ page) then websiteRoot home ++ page
      else fallback_website_path ++ '/' :: page := rfl

/-- Claim C7: error-page resolution first probes the custom page under the
website root; the final target is the fixed system-wide fallback path exactly
when that probe fails. -/
theorem c7_error_page_resolution (fs : Str → Bool) (home page : Str) :
    (fs (websiteRoot home ++ page) = true →
      handle_error_case fs home page = websiteRoot home ++ page) ∧
    (handle_error_case fs home page = fallback_website_path ++ '/' :: page ↔
      fs (websiteRoot home ++ page) = false) := by
  have l1 : program_data_infix.length = 24 := by decide
  have l2 : ("website/".data : Str).length = 8 := by decide
  have l3 : fallback_website_path.length = 22 := by decide
  have hne : websiteRoot home ++ page ≠ fallback_website_path ++ '/' :: page := by
    intro he
    have hlen := congrArg List.length he
    simp only [websiteRoot, prepend_program_data_path, List.length_append,
      List.length_cons, l1, l2, l3] at hlen
    omega
  refine ⟨?_, ?_, ?_⟩
  · intro hfs
    rw [handle_error_case_eq, if_pos hfs]
  · intro heq
    cases hfs : fs (websiteRoot home ++ page)
    · rfl
    · exfalso
      rw [handle_error_case_eq, if_pos hfs] at heq
      exact hne heq
  · intro hfs
    rw [handle_error_case_eq, if_neg]
    rw [hfs]
    exact Bool.false_ne_true

/-- Witness for C7 at a concrete filesystem where the custom page exists. -/
theorem c7_witness :
    handle_error_case (fun _ => true) "/h".data "403.html".data
      = websiteRoot "/h".data ++ "403.html".data :=
  (c7_error_page_resolution (fun _ => true) "/h".data "403.html".data).1 rfl

/-- Claim C3 (amended): error-page resolution substitutes the fixed fallback
path without checking that it exists, and the startup check looks only at
the website directory, so for every home there is a filesystem state that
passes the startup check yet resolves an error to a nonexistent path. -/
theorem c3_amended (home page : Str)
    (hpage : page ∈ ["403.html".data, "404.html".data, "405.html".data]) :
    ∃ fs : Str → Bool, website_dir_exists fs home = true ∧
      fs (handle_error_case fs home page) = false := by
  have hprop : page ≠ [] ∧ page.getLast? = some 'l' := by
    simp only [List.mem_cons, List.not_mem_nil, or_false] at hpage
    rcases hpage with h | h | h <;> subst h <;> exact ⟨by decide, by decide⟩
  refine ⟨fun p => p == websiteRoot home, ?_, ?_⟩
  · rw [website_dir_exists]
    simp
  · have h1 : ¬((websiteRoot home ++ page == websiteRoot home) = true) := by
      intro hc
      have he : websiteRoot home ++ page = websiteRoot home := by
        exact eq_of_beq hc
      have hlen := congrArg List.length he
      simp only [List.length_append] at hlen
      have : page.length = 0 := by omega
      exact hprop.1 (List.length_eq_zero.mp this)
    rw [handle_error_case_eq]
    show ((if (websiteRoot home ++ page == websiteRoot home) = true
        then websiteRoot home ++ page
        else fallback_website_path ++ '/' :: page) == websiteRoot home) = false
    rw [if_neg h1]
    apply beq_eq_false_iff_ne.mpr
    intro he
    have hL := congrArg List.getLast? he
    have hgl1 : (fallback_website_path ++ '/' :: page).getLast? = some 'l' := by
      rw [List.getLast?_append_of_ne_nil _ (by simp),
        getLast?_cons_of_ne_nil '/' page hprop.1, hprop.2]
    have hgl2 : (websiteRoot home).getLast? = some '/' := by
      rw [websiteRoot_split]
      exact List.getLast?_concat _
    rw [hgl1, hgl2] at hL
    exact absurd (Option.some.inj hL) (by decide)

/-- Witness for the amended C3 at a concrete home and error page. -/
theorem c3_amended_witness :
    ∃ fs : Str → Bool, website_dir_exists fs "/h".data = true ∧
      fs (handle_error_case fs "/h".data "404.html".data) = false :=
  c3_amended "/h".data "404.html".data (by decide)

/-- Counterexample to claim C1 as stated: the requested path `/a/../` of a
GET request contains the literal `../`, yet because it ends in a slash it is
rejected as malformed and replaced by `404.html` before traversal detection,
and on a filesystem where the custom `404.html` exists the resolver yields
status 200, not 403. -/
theorem c1_counterexample :
    containsSubstr "../".data "/a/../".data = true ∧
    get_method "GET /a/../ HTTP/1.1".data = some .GET ∧
    process_request (fun p => p == (websiteRoot "/h".data ++ "404.html".data))
        "/h".data "GET /a/../ HTTP/1.1".data
      = some (200, websiteRoot "/h".data ++ "404.html".data) := by decide

/-- Witness for the amended C1 at a concrete traversal request. -/
theorem c1_witness :
    process_request (fun _ => false) "/h".data
        ("GET /".data ++ "../x".data ++ ' ' :: "HTTP/1.1".data)
      = some (403, handle_error_case (fun _ => false) "/h".data "403.html".data) :=
  (c1_traversal_403 (fun _ => false) "/h".data "../x".data "HTTP/1.1".data
    [] "x".data "../".data (by decide) (by decide) (by decide) (by decide)).1

/-- Counterexample to claim C3 as stated: a filesystem state that contains
exactly the website directory passes the startup check, yet a 405 request
resolves to the fallback error page path, which does not exist on that
filesystem; nothing at startup checks the fallback pages. -/
theorem c3_counterexample :
    website_dir_exists (fun p => p == websiteRoot "/h".data) "/h".data = true ∧
    process_request (fun p => p == websiteRoot "/h".data) "/h".data
        "POST /x HTTP/1.1".data
      = some (405, "/etc/cyllenian/website/405.html".data) ∧
    ((fun p : Str => p == websiteRoot "/h".data)
        "/etc/cyllenian/website/405.html".data) = false := by decide

/-- Claim C4 at its failing input: the request line `GET /images/ HTTP/1.1`
is isolated as malformed and defaulted to `404.html`, but on a filesystem
where the custom `404.html` exists the resolver returns status 200, not the
404 the claim (and the comment in `get_requested_file_path`) promises. -/
theorem c4_malformed_200 :
    isolate_file_request "GET /images/ HTTP/1.1".data = .malformed ∧
    process_request (fun p => p == (websiteRoot "/h".data ++ "404.html".data))
        "/h".data "GET /images/ HTTP/1.1".data
      = some (200, websiteRoot "/h".data ++ "404.html".data) := by decide

/-- Counterexample to claim C5 as stated: a target with no extension yields
the `text/plain` line, not `application/octet-stream`. -/
theorem c5_counterexample :
    get_content_type "file".data = .written "Content-Type: text/plain\r\n\r\n".data ∧
    "Content-Type: text/plain\r\n\r\n".data
      ≠ "Content-Type: application/octet-stream\r\n\r\n".data := by decide

/-- Claim C5 (amended): each of the fourteen known extensions maps to its
documented content type; a path with no extension yields `text/plain`; an
unknown extension either leaves the output buffer unwritten (here `txt`) or,
when it orders strictly before `css`, drives the unsigned upper bound below
zero and indexes the table out of bounds (here `avi`).  The claimed
`application/octet-stream` default is never produced. -/
theorem c5_mime_lookup (p : Str) :
    (get_file_extension p = none →
        get_content_type p = .written "Content-Type: text/plain\r\n\r\n".data) ∧
    (get_file_extension p = some "css".data →
        get_content_type p = .written "Content-Type: text/css\r\n\r\n".data) ∧
    (get_file_extension p = some "gif".data →
        get_content_type p = .written "Content-Type: image/gif\r\n\r\n".data) ∧
    (get_file_extension p = some "htm".data →
        get_content_type p = .written "Content-Type: text/html\r\n\r\n".data) ∧
    (get_file_extension p = some "html".data →
        get_content_type p = .written "Content-Type: text/html\r\n\r\n".data) ∧
    (get_file_extension p = some "jpeg".data →
        get_content_type p = .written "Content-Type: image/jpeg\r\n\r\n".data) ∧
    (get_file_extension p = some "jpg".data →
        get_content_type p = .written "Content-Type: image/jpeg\r\n\r\n".data) ∧
    (get_file_extension p = some "js".data →
        get_content_type p = .written "Content-Type: text/javascript\r\n\r\n".data) ∧
    (get_file_extension p = some "json".data →
        get_content_type p = .written "Content-Type: application/json\r\n\r\n".data) ∧
    (get_file_extension p = some "mp3".data →
        get_content_type p = .written "Content-Type: audio/mpeg\r\n\r\n".data) ∧
    (get_file_extension p = some "mp4".data →
        get_content_type p = .written "Content-Type: video/mp4\r\n\r\n".data) ∧
    (get_file_extension p = some "png".data →
        get_content_type p = .written "Content-Type: image/png\r\n\r\n".data) ∧
    (get_file_extension p = some "svg".data →
        get_content_type p = .written "Content-Type: image/svg+xml\r\n\r\n".data) ∧
    (get_file_extension p = some "ttf".data →
        get_content_type p = .written "Content-Type: font/ttf\r\n\r\n".data) ∧
    (get_file_extension p = some "xml".data →
        get_content_type p = .written "Content-Type: application/xml\r\n\r\n".data) ∧
    (get_file_extension p = some "txt".data → get_content_type p = .untouched) ∧
    (get_file_extension p = some "avi".data → get_content_type p = .oobAccess) := by
  refine ⟨?_, ?_, ?_, ?_, ?_, ?_, ?_, ?_, ?_, ?_, ?_, ?_, ?_, ?_, ?_, ?_, ?_⟩ <;>
    (intro h; unfold get_content_type; rw [h]; decide)

/-- Witness for the amended C5 at a concrete html path. -/
theorem c5_witness :
    get_content_type "x.html".data
      = .written "Content-Type: text/html\r\n\r\n".data :=
  (c5_mime_lookup "x.html".data).2.2.2.2.1 (by decide)

/-- Claim C6 at its failing input: for status 200 and target `a.txt` the
content-type lookup leaves its buffer unwritten, so the header builder reads
uninitialized memory instead of returning the exact header format or an
overflow failure. -/
theorem c6_uninit_header :
    get_content_type "a.txt".data = .untouched ∧
    construct_header 200 "a.txt".data = .uninitRead := by decide

/-- Claim C8 at its failing input: the three-character request `GET` makes
the five-byte method skip read past the end of the duplicated request
buffer, and an empty target after the skip (request `GET x HTTP/1.1`) is
accepted as an empty path rather than treated as malformed. -/
theorem c8_short_request_oob :
    isolate_file_request "GET".data = .oobRead ∧
    process_request (fun _ => true) "/h".data "GET".data = none ∧
    isolate_file_request "GET x HTTP/1.1".data = .ok [] := by decide

/-- Witness for C10 at a concrete target. -/
theorem c10_witness :
    process_request (fun _ => true) "/h".data
        ("GET /".data ++ "index.html".data ++ ' ' :: "HTTP/1.1".data)
      = process_request (fun _ => true) "/h".data
        ("HEAD /".data ++ "index.html".data ++ ' ' :: "HTTP/1.1".data) :=
  (c10_get_head_agree (fun _ => true) "/h".data "index.html".data "HTTP/1.1".data
    (by decide) (by decide) (by decide)).2.2.2.1
